import Mathlib

/-
Verification of the transfer-orchestration backend of FAST-File-Explorer
(src-tauri).  The Rust commands in src/src-tauri/src/funcs/copy.rs,
src/src-tauri/src/lib.rs and src/src-tauri/src/funcs/files.rs are shallowly
embedded below: filesystem and subprocess outcomes are explicit inputs, and
each command returns its synchronous Result together with the trace of
external actions it performs (or the UI events its background task emits).
-/

/-- External filesystem / process actions attempted by the copy and move
commands in copy.rs.  `spawnRclone s d` records spawning the sidecar
`rclone copy s d -P`. -/
inductive FsAction where
  | rename (src dst : String)
  | spawnRclone (src dst : String)
  | removeFile (p : String)
deriving DecidableEq

/-- Shallow embedding of `clone` (copy.rs lines 5-35).  `ex source` is the
ambient answer of `fs::metadata(source).is_ok()`; `sp` is the outcome of
`sidecar_command.spawn()` (`none` = success, `some e` = the spawn error text).
Returns the command's synchronous `Result` paired with the trace of external
actions.  On success the command returns at spawn time: the stdout-printing
task it detaches is not part of the synchronous contract.  The recursive call
mirrors `Box::pin(clone(app, source, &new_destination)).await` taken when
source and destination collide. -/
def clone (ex : String → Bool) (sp : Option String) (source destination : String) :
    Except String Unit × List FsAction :=
  if ex source = false then
    (Except.error ("Source path does not exist: " ++ source), [])
  else if h : source = destination then
    clone ex sp source (destination ++ " - Copy")
  else
    match sp with
    | some e => (Except.error ("Failed to spawn rclone: " ++ e), [])
    | none => (Except.ok (), [FsAction.spawnRclone source destination])
termination_by (if source = destination then 1 else 0)
decreasing_by
  subst h
  have hne : source ≠ source ++ " - Copy" := by
    intro hEq
    have hlen := congrArg String.length hEq
    rw [String.length_append] at hlen
    have h7 : (" - Copy" : String).length = 7 := rfl
    rw [h7] at hlen
    omega
  simp [hne]

/-- Ambient outcomes observed by one run of `cut` (copy.rs lines 37-50):
the result of `fs::rename` (`none` = Ok), the value of
`cfg!(target_os = "windows")`, the filesystem/spawn outcomes seen by the
inner `clone` call, and the result of `fs::remove_file`. -/
structure CutEnv where
  renameResult : Option String
  isWindows : Bool
  exAfter : String → Bool
  cloneSpawn : Option String
  removeResult : Option String

/-- Shallow embedding of `cut` (copy.rs lines 37-50).  Note the structure of
the source: a rename failure propagates immediately through the `?` operator,
and the clone-then-delete block runs only when the rename has already
succeeded and the target OS is Windows. -/
def cut (env : CutEnv) (source destination : String) :
    Except String Unit × List FsAction :=
  match env.renameResult with
  | some e =>
      (Except.error ("Failed to move file: " ++ e),
       [FsAction.rename source destination])
  | none =>
      if env.isWindows then
        match clone env.exAfter env.cloneSpawn source destination with
        | (Except.error e, acts) =>
            (Except.error e, FsAction.rename source destination :: acts)
        | (Except.ok _, acts) =>
            match env.removeResult with
            | some e =>
                (Except.error ("Failed to delete original file after copy: " ++ e),
                 FsAction.rename source destination :: acts ++ [FsAction.removeFile source])
            | none =>
                (Except.ok (),
                 FsAction.rename source destination :: acts ++ [FsAction.removeFile source])
      else
        (Except.ok (), [FsAction.rename source destination])

/-- Events delivered on the channel of a spawned sidecar process, as consumed
by the background task of `transfer_file` (lib.rs).  Line payloads are
modeled after the lossy UTF-8 decoding the task applies.  `other` stands for
the catch-all arm of the Rust `match`. -/
inductive CommandEvent where
  | stdout (line : String)
  | stderr (line : String)
  | terminated (code : Option Int)
  | error (msg : String)
  | other
deriving DecidableEq

/-- UI events the background task of `transfer_file` attempts to emit. -/
inductive UiEvent where
  | rsyncOutput (s : String)
  | rsyncError (s : String)
  | rsyncComplete (s : String)
  | rsyncFailed (s : String)
deriving DecidableEq

/-- Rust Debug formatting of an `Option<i32>` exit code, as interpolated into
the failure message of `transfer_file`. -/
def debugCode : Option Int → String
  | none => "None"
  | some n => "Some(" ++ toString n ++ ")"

/-- Body of the background task of `transfer_file` (lib.rs lines 23-58): it
consumes the process event stream and returns the UI events it attempts to
emit, in order, together with the stderr log lines it prints.  `emitOk` is
the delivery outcome of each `app.emit` call: a failed delivery of an
output/error event is only logged, and the emits in the Terminated and Error
arms discard their delivery result entirely.  The loop breaks at the first
Terminated or Error event. -/
def streamLoop (emitOk : UiEvent → Bool) : List CommandEvent → List UiEvent × List String
  | [] => ([], [])
  | CommandEvent.stdout line :: rest =>
      let e := UiEvent.rsyncOutput line
      let r := streamLoop emitOk rest
      (e :: r.1, if emitOk e then r.2 else "Failed to emit rsync-output" :: r.2)
  | CommandEvent.stderr line :: rest =>
      let e := UiEvent.rsyncError line
      let r := streamLoop emitOk rest
      (e :: r.1, if emitOk e then r.2 else "Failed to emit rsync-error" :: r.2)
  | CommandEvent.terminated code :: _ =>
      ((if code = some 0 then
          [UiEvent.rsyncComplete "Transfer completed successfully"]
        else
          [UiEvent.rsyncFailed ("Transfer failed with exit code: " ++ debugCode code)]), [])
  | CommandEvent.error msg :: _ =>
      ([UiEvent.rsyncFailed ("Process error: " ++ msg)], [])
  | CommandEvent.other :: rest => streamLoop emitOk rest

/-- Ambient outcomes observed by one run of `transfer_file` (lib.rs lines
4-63): the result of resolving the rsync sidecar, the result of spawning it,
and the event stream the spawned process later produces. -/
structure TransferEnv where
  sidecarErr : Option String
  spawnErr : Option String
  events : List CommandEvent

/-- Shallow embedding of `transfer_file` (lib.rs lines 4-63): the first
component is the synchronous `Result` returned to the caller, the second is
the list of UI events the detached background task attempts to emit. -/
def transfer_file (env : TransferEnv) (emitOk : UiEvent → Bool)
    (source dest : String) : Except String Unit × List UiEvent :=
  match env.sidecarErr with
  | some e => (Except.error ("Failed to access rsync sidecar: " ++ e), [])
  | none =>
      match env.spawnErr with
      | some e => (Except.error ("Failed to spawn rsync: " ++ e), [])
      | none => (Except.ok (), (streamLoop emitOk env.events).1)

/-- The record returned per directory entry by `list_files` (files.rs lines
5-12).  The u64 size is modeled as Nat (no size arithmetic occurs). -/
structure FileEntry where
  name : String
  path : String
  is_dir : Bool
  size : Nat
  modified : Option String
deriving DecidableEq

/-- One step of the `read_dir` iterator in `list_files`: either a
successfully read entry, already assembled into its `FileEntry` record by the
metadata processing of lines 33-56, or the error text of an entry whose read
failed. -/
inductive DirEntryRead where
  | ok (e : FileEntry)
  | err (msg : String)
deriving DecidableEq

/-- Ambient filesystem answers for one `list_files` call: `path.exists()`,
`path.is_dir()`, and the result of `fs::read_dir` (an error, or the sequence
of per-entry iterator results). -/
structure PathInfo where
  pathExists : Bool
  isDir : Bool
  entries : Except String (List DirEntryRead)

/-- Rust `str::to_lowercase` restricted to the per-character mapping
(sufficient for the ASCII names compared here). -/
def lowercase (s : String) : List Char := s.data.map Char.toLower

/-- Lexicographic comparison of character sequences, the order behind Rust's
`String::cmp` on the lowercased names (codepoint order, which agrees with
UTF-8 byte order). -/
def leChars : List Char → List Char → Bool
  | [], _ => true
  | _ :: _, [] => false
  | a :: as, b :: bs => if a < b then true else if b < a then false else leChars as bs

/-- The `sort_by` comparator of `list_files` (files.rs lines 65-69), read as
"a may be placed no later than b" (comparator result is not Greater):
directories strictly before files, and within the same class case-insensitive
name order. -/
def entryLeB (a b : FileEntry) : Bool :=
  match a.is_dir, b.is_dir with
  | true, false => true
  | false, true => false
  | _, _ => leChars (lowercase a.name) (lowercase b.name)

/-- `entryLeB` as a relation, for use with the stable sort. -/
def entryLe (a b : FileEntry) : Prop := entryLeB a b = true

instance : DecidableRel entryLe :=
  fun a b => inferInstanceAs (Decidable (entryLeB a b = true))

/-- The entry kept for a successful iterator step (a failed step is skipped). -/
def readEntry : DirEntryRead → Option FileEntry
  | DirEntryRead.ok e => some e
  | DirEntryRead.err _ => none

/-- The stderr line printed for a failed iterator step. -/
def entryLog : DirEntryRead → Option String
  | DirEntryRead.ok _ => none
  | DirEntryRead.err e => some ("Error reading entry: " ++ e)

/-- Shallow embedding of `list_files` (files.rs lines 15-72).  The first
component is the returned `Result`; the second is the stderr log, one line
per entry whose read failed.  Rust's `slice::sort_by` is a stable sort, which
is modeled by the stable `List.insertionSort` over the same comparator. -/
def list_files (p : PathInfo) (path : String) :
    Except String (List FileEntry) × List String :=
  if p.pathExists = false then
    (Except.error ("Path does not exist: " ++ path), [])
  else if p.isDir = false then
    (Except.error ("Path is not a directory: " ++ path), [])
  else
    match p.entries with
    | Except.error e => (Except.error ("Failed to read directory: " ++ e), [])
    | Except.ok es =>
        (Except.ok (List.insertionSort entryLe (es.filterMap readEntry)),
         es.filterMap entryLog)

/-- The UI event the streaming loop attempts for a non-terminal process
event. -/
def progressEmit : CommandEvent → Option UiEvent
  | CommandEvent.stdout line => some (UiEvent.rsyncOutput line)
  | CommandEvent.stderr line => some (UiEvent.rsyncError line)
  | _ => none

/-- Process events that do not break the streaming loop. -/
def nonTerminal : CommandEvent → Bool
  | CommandEvent.terminated _ => false
  | CommandEvent.error _ => false
  | _ => true

/-- UI events that are terminal for a transfer. -/
def isTerminalEvent : UiEvent → Bool
  | UiEvent.rsyncComplete _ => true
  | UiEvent.rsyncFailed _ => true
  | _ => false

/-- The directory of testable property 5: files b.txt and a.txt and
subdirectory A, yielded by the iterator in that order. -/
def exampleEntries : List DirEntryRead :=
  [DirEntryRead.ok ⟨"b.txt", "/d/b.txt", false, 3, none⟩,
   DirEntryRead.ok ⟨"A", "/d/A", true, 0, none⟩,
   DirEntryRead.ok ⟨"a.txt", "/d/a.txt", false, 5, none⟩]

/-- The example directory, existing and readable. -/
def examplePath : PathInfo := ⟨true, true, Except.ok exampleEntries⟩

/-- A directory whose iterator fails on its middle entry. -/
def mixedEntries : List DirEntryRead :=
  [DirEntryRead.ok ⟨"z.txt", "/m/z.txt", false, 1, none⟩,
   DirEntryRead.err "permission denied",
   DirEntryRead.ok ⟨"k", "/m/k", true, 0, none⟩]

/-- Appending the collision suffix always changes the path. -/
theorem append_suffix_ne (s : String) : s ++ " - Copy" ≠ s := by
  intro hEq
  have hlen := congrArg String.length hEq
  rw [String.length_append] at hlen
  have h7 : (" - Copy" : String).length = 7 := rfl
  rw [h7] at hlen
  omega

/-- With an existing source and distinct paths, `clone` spawns the copy tool
once and returns Ok. -/
theorem clone_spawns (ex : String → Bool) (s d : String)
    (hex : ex s = true) (hne : s ≠ d) :
    clone ex none s d = (Except.ok (), [FsAction.spawnRclone s d]) := by
  rw [clone.eq_def, hex]
  simp [hne]

/-- With an existing source, a source/destination collision makes `clone`
retry once with the suffixed destination. -/
theorem clone_collision_step (ex : String → Bool) (sp : Option String)
    (s : String) (hex : ex s = true) :
    clone ex sp s s = clone ex sp s (s ++ " - Copy") := by
  conv_lhs => rw [clone.eq_def]
  rw [hex]
  simp

/-- The streaming loop over a terminal-free prefix republishes each line and
continues with the rest of the stream. -/
theorem streamLoop_append (f : UiEvent → Bool) (pre rest : List CommandEvent)
    (h : ∀ e ∈ pre, nonTerminal e = true) :
    (streamLoop f (pre ++ rest)).1 =
      pre.filterMap progressEmit ++ (streamLoop f rest).1 := by
  induction pre with
  | nil => simp
  | cons e pre ih =>
    have he : nonTerminal e = true := h e (List.mem_cons_self e pre)
    have hpre : ∀ x ∈ pre, nonTerminal x = true :=
      fun x hx => h x (List.mem_cons_of_mem e hx)
    cases e with
    | stdout line => simp [streamLoop, progressEmit, ih hpre]
    | stderr line => simp [streamLoop, progressEmit, ih hpre]
    | terminated code => simp [nonTerminal] at he
    | error msg => simp [nonTerminal] at he
    | other => simp [streamLoop, progressEmit, ih hpre]

/-- Republished progress lines are never terminal transfer events. -/
theorem progressEmit_not_terminal (pre : List CommandEvent) :
    ∀ u ∈ pre.filterMap progressEmit, isTerminalEvent u = false := by
  intro u hu
  rcases List.mem_filterMap.mp hu with ⟨e, _, he⟩
  cases e with
  | stdout line =>
    simp only [progressEmit, Option.some.injEq] at he
    rw [← he]
    rfl
  | stderr line =>
    simp only [progressEmit, Option.some.injEq] at he
    rw [← he]
    rfl
  | terminated code => simp [progressEmit] at he
  | error msg => simp [progressEmit] at he
  | other => simp [progressEmit] at he

/-- The sequence of emit attempts of the streaming loop does not depend on
the delivery outcome of any emit. -/
theorem streamLoop_fst_ignores_sink (f g : UiEvent → Bool) :
    ∀ evs : List CommandEvent, (streamLoop f evs).1 = (streamLoop g evs).1 := by
  intro evs
  induction evs with
  | nil => rfl
  | cons e rest ih => cases e <;> simp [streamLoop, ih]

/-- Head characterization of the lexicographic comparison. -/
theorem leChars_cons (a b : Char) (as bs : List Char) :
    leChars (a :: as) (b :: bs) = true ↔
      (a < b ∨ (a = b ∧ leChars as bs = true)) := by
  rcases lt_trichotomy a b with h | h | h
  · simp only [leChars, if_pos h]
    exact iff_of_true trivial (Or.inl h)
  · subst h
    simp only [leChars, if_neg (lt_irrefl a)]
    constructor
    · intro hl
      exact Or.inr ⟨trivial, hl⟩
    · rintro (hlt | ⟨_, hl⟩)
      · exact absurd hlt (lt_irrefl a)
      · exact hl
  · simp only [leChars, if_neg (lt_asymm h), if_pos h]
    refine iff_of_false (by simp) ?_
    rintro (hlt | ⟨heq, _⟩)
    · exact lt_asymm h hlt
    · exact absurd heq (ne_of_gt h)

/-- The lexicographic comparison is total. -/
theorem leChars_total (as : List Char) :
    ∀ bs, leChars as bs = true ∨ leChars bs as = true := by
  induction as with
  | nil => intro bs; exact Or.inl rfl
  | cons a as ih =>
    intro bs
    cases bs with
    | nil => exact Or.inr rfl
    | cons b bs =>
      rcases lt_trichotomy a b with h | h | h
      · exact Or.inl (by rw [leChars_cons]; exact Or.inl h)
      · subst h
        rcases ih bs with hl | hl
        · exact Or.inl (by rw [leChars_cons]; exact Or.inr ⟨rfl, hl⟩)
        · exact Or.inr (by rw [leChars_cons]; exact Or.inr ⟨rfl, hl⟩)
      · exact Or.inr (by rw [leChars_cons]; exact Or.inl h)

/-- The lexicographic comparison is transitive. -/
theorem leChars_trans (as : List Char) :
    ∀ bs cs, leChars as bs = true → leChars bs cs = true →
      leChars as cs = true := by
  induction as with
  | nil => intro bs cs h1 h2; rfl
  | cons a as ih =>
    intro bs cs h1 h2
    cases bs with
    | nil => simp [leChars] at h1
    | cons b bs =>
      cases cs with
      | nil => simp [leChars] at h2
      | cons c cs =>
        rw [leChars_cons] at h1 h2 ⊢
        rcases h1 with h1 | ⟨rfl, h1⟩
        · rcases h2 with h2 | ⟨rfl, h2⟩
          · exact Or.inl (lt_trans h1 h2)
          · exact Or.inl h1
        · rcases h2 with h2 | ⟨rfl, h2⟩
          · exact Or.inl h2
          · exact Or.inr ⟨rfl, ih bs cs h1 h2⟩

/-- Unfolded reading of the sort comparator. -/
theorem entryLe_iff (a b : FileEntry) : entryLe a b ↔
    ((a.is_dir = true ∧ b.is_dir = false) ∨
     (a.is_dir = b.is_dir ∧
      leChars (lowercase a.name) (lowercase b.name) = true)) := by
  unfold entryLe entryLeB
  cases ha : a.is_dir <;> cases hb : b.is_dir <;> simp

/-- The comparator relation is total. -/
theorem entryLe_total (a b : FileEntry) : entryLe a b ∨ entryLe b a := by
  rw [entryLe_iff, entryLe_iff]
  cases ha : a.is_dir <;> cases hb : b.is_dir
  · rcases leChars_total (lowercase a.name) (lowercase b.name) with h | h
    · exact Or.inl (Or.inr ⟨rfl, h⟩)
    · exact Or.inr (Or.inr ⟨rfl, h⟩)
  · exact Or.inr (Or.inl ⟨rfl, rfl⟩)
  · exact Or.inl (Or.inl ⟨rfl, rfl⟩)
  · rcases leChars_total (lowercase a.name) (lowercase b.name) with h | h
    · exact Or.inl (Or.inr ⟨rfl, h⟩)
    · exact Or.inr (Or.inr ⟨rfl, h⟩)

/-- The comparator relation is transitive. -/
theorem entryLe_trans (a b c : FileEntry)
    (h1 : entryLe a b) (h2 : entryLe b c) : entryLe a c := by
  rw [entryLe_iff] at h1 h2 ⊢
  rcases h1 with ⟨ha, hb⟩ | ⟨hab, h1⟩
  · rcases h2 with ⟨hb2, hc⟩ | ⟨hbc, h2⟩
    · rw [hb] at hb2
      exact absurd hb2 (by simp)
    · exact Or.inl ⟨ha, by rw [← hbc, hb]⟩
  · rcases h2 with ⟨hb2, hc⟩ | ⟨hbc, h2⟩
    · exact Or.inl ⟨by rw [hab, hb2], hc⟩
    · exact Or.inr ⟨by rw [hab, hbc],
        leChars_trans (lowercase a.name) (lowercase b.name) (lowercase c.name) h1 h2⟩

instance : IsTotal FileEntry entryLe := ⟨entryLe_total⟩

instance : IsTrans FileEntry entryLe := ⟨entryLe_trans⟩

/-- Claim C1 (evaluation of the code at the failing situation): when
`fs::rename` fails — the cross-volume condition — `cut` returns the rename
error synchronously and never spawns the copy tool, so the copy+delete
fallback does not run; and when the rename succeeds on Windows, the copy tool
IS spawned anyway and the source is removed immediately after the spawn
returns, not after the copy subprocess terminates. -/
theorem cut_rename_failure_no_fallback :
    (cut ⟨some "cross-device link (os error 17)", true, fun _ => true, none, none⟩
        "C:/data/a.txt" "D:/data/a.txt" =
      (Except.error ("Failed to move file: " ++ "cross-device link (os error 17)"),
       [FsAction.rename "C:/data/a.txt" "D:/data/a.txt"])) ∧
    (∀ s d, FsAction.spawnRclone s d ∉
      (cut ⟨some "cross-device link (os error 17)", true, fun _ => true, none, none⟩
        "C:/data/a.txt" "D:/data/a.txt").2) ∧
    (cut ⟨none, true, fun _ => true, none, none⟩ "/v/a.txt" "/v/b.txt" =
      (Except.ok (),
       [FsAction.rename "/v/a.txt" "/v/b.txt",
        FsAction.spawnRclone "/v/a.txt" "/v/b.txt",
        FsAction.removeFile "/v/a.txt"])) := by
  refine ⟨rfl, ?_, ?_⟩
  · intro s d hmem
    simp [cut] at hmem
  · have hclone := clone_spawns (fun _ => true) "/v/a.txt" "/v/b.txt" rfl (by decide)
    simp [cut, hclone]

/-- Claim C2: on a source/destination collision `clone` appends the fixed
suffix " - Copy" once and retries; the suffixed destination always differs
from the source, so the recursion terminates after the single rename and the
external tool is invoked with a destination different from the source. -/
theorem clone_collision_terminates (ex : String → Bool) (sp : Option String)
    (s : String) (hex : ex s = true) :
    clone ex sp s s = clone ex sp s (s ++ " - Copy") ∧
    (s ++ " - Copy") ≠ s ∧
    clone ex none s s = (Except.ok (), [FsAction.spawnRclone s (s ++ " - Copy")]) := by
  refine ⟨clone_collision_step ex sp s hex, append_suffix_ne s, ?_⟩
  rw [clone_collision_step ex none s hex]
  exact clone_spawns ex s (s ++ " - Copy") hex (Ne.symm (append_suffix_ne s))

/-- Witness for C2 at a concrete collision. -/
theorem clone_collision_terminates_witness :
    clone (fun _ => true) none "/v/file.txt" "/v/file.txt" =
      clone (fun _ => true) none "/v/file.txt" ("/v/file.txt" ++ " - Copy") ∧
    ("/v/file.txt" ++ " - Copy") ≠ "/v/file.txt" ∧
    clone (fun _ => true) none "/v/file.txt" "/v/file.txt" =
      (Except.ok (),
       [FsAction.spawnRclone "/v/file.txt" ("/v/file.txt" ++ " - Copy")]) :=
  clone_collision_terminates (fun _ => true) none "/v/file.txt" rfl

/-- Claim C3: when the source does not exist, `clone` returns the
SourceNotFound error synchronously and its action trace is empty, so no
external process is spawned. -/
theorem clone_missing_source_no_spawn (ex : String → Bool) (sp : Option String)
    (source destination : String) (h : ex source = false) :
    clone ex sp source destination =
      (Except.error ("Source path does not exist: " ++ source), []) ∧
    ∀ s d, FsAction.spawnRclone s d ∉ (clone ex sp source destination).2 := by
  have heq : clone ex sp source destination =
      (Except.error ("Source path does not exist: " ++ source), []) := by
    rw [clone.eq_def, h]
    simp
  refine ⟨heq, ?_⟩
  intro s d
  rw [heq]
  simp

/-- Witness for C3 at a concrete missing source. -/
theorem clone_missing_source_no_spawn_witness :
    clone (fun _ => false) none "/missing.txt" "/dst.txt" =
      (Except.error ("Source path does not exist: " ++ "/missing.txt"), []) ∧
    ∀ s d, FsAction.spawnRclone s d ∉
      (clone (fun _ => false) none "/missing.txt" "/dst.txt").2 :=
  clone_missing_source_no_spawn (fun _ => false) none "/missing.txt" "/dst.txt" rfl

/-- Claim C4: a process stream whose first terminal event is Terminated with
exit code 0 makes the loop emit the progress lines followed by exactly one
terminal event, the completion event, and nothing after it; with a nonzero
code the single terminal event is the failure event carrying that code. -/
theorem transfer_terminal_events (f : UiEvent → Bool) (pre post : List CommandEvent)
    (code : Option Int) (h : ∀ e ∈ pre, nonTerminal e = true) :
    (code = some 0 →
      (streamLoop f (pre ++ CommandEvent.terminated code :: post)).1 =
        pre.filterMap progressEmit ++
          [UiEvent.rsyncComplete "Transfer completed successfully"]) ∧
    (code ≠ some 0 →
      (streamLoop f (pre ++ CommandEvent.terminated code :: post)).1 =
        pre.filterMap progressEmit ++
          [UiEvent.rsyncFailed ("Transfer failed with exit code: " ++ debugCode code)]) ∧
    ((streamLoop f (pre ++ CommandEvent.terminated code :: post)).1.filter
        isTerminalEvent).length = 1 := by
  have hsplit := streamLoop_append f pre (CommandEvent.terminated code :: post) h
  have hterm : (streamLoop f (CommandEvent.terminated code :: post)).1 =
      if code = some 0 then [UiEvent.rsyncComplete "Transfer completed successfully"]
      else [UiEvent.rsyncFailed ("Transfer failed with exit code: " ++ debugCode code)] := rfl
  have hA : (pre.filterMap progressEmit).filter isTerminalEvent = [] := by
    rw [List.filter_eq_nil_iff]
    intro u hu
    rw [progressEmit_not_terminal pre u hu]
    simp
  refine ⟨?_, ?_, ?_⟩
  · intro hc
    rw [hsplit, hterm, if_pos hc]
  · intro hc
    rw [hsplit, hterm, if_neg hc]
  · rw [hsplit, hterm, List.filter_append, hA]
    by_cases hc : code = some 0
    · rw [if_pos hc]
      rfl
    · rw [if_neg hc]
      rfl

/-- Witness for C4 at a concrete clean-exit stream. -/
theorem transfer_terminal_events_witness :
    (streamLoop (fun _ => true)
        ([CommandEvent.stdout "sent 42 bytes"] ++
          CommandEvent.terminated (some 0) :: [])).1 =
      [CommandEvent.stdout "sent 42 bytes"].filterMap progressEmit ++
        [UiEvent.rsyncComplete "Transfer completed successfully"] :=
  (transfer_terminal_events (fun _ => true) [CommandEvent.stdout "sent 42 bytes"]
      [] (some 0) (by decide)).1 rfl

/-- Claim C5: for an existing directory (with a readable iterator) the
listing returns Ok with the entries sorted by the comparator — directories
first, then case-insensitive name order; on the concrete folder with files
b.txt and a.txt and subdirectory A the listed name order is A, a.txt, b.txt;
a missing path or a non-directory path yields the corresponding error. -/
theorem list_files_ordering (p : PathInfo) (path : String) :
    (p.pathExists = false →
      (list_files p path).1 = Except.error ("Path does not exist: " ++ path)) ∧
    (p.pathExists = true → p.isDir = false →
      (list_files p path).1 = Except.error ("Path is not a directory: " ++ path)) ∧
    (∀ es, p.pathExists = true → p.isDir = true → p.entries = Except.ok es →
      ∃ l, (list_files p path).1 = Except.ok l ∧ List.Pairwise entryLe l) ∧
    (∃ l, (list_files examplePath "/d").1 = Except.ok l ∧
      l.map FileEntry.name = ["A", "a.txt", "b.txt"]) := by
  refine ⟨?_, ?_, ?_, ?_⟩
  · intro h
    simp [list_files, h]
  · intro h1 h2
    simp [list_files, h1, h2]
  · intro es h1 h2 h3
    refine ⟨List.insertionSort entryLe (es.filterMap readEntry), ?_, ?_⟩
    · simp [list_files, h1, h2, h3]
    · exact List.sorted_insertionSort entryLe (es.filterMap readEntry)
  · exact ⟨_, rfl, rfl⟩

/-- Witness for C5: the missing-path error and the sortedness of the example
listing, at concrete inputs. -/
theorem list_files_ordering_witness :
    ((list_files ⟨false, true, Except.ok []⟩ "/nope").1 =
      Except.error ("Path does not exist: " ++ "/nope")) ∧
    (∃ l, (list_files examplePath "/d").1 = Except.ok l ∧
      List.Pairwise entryLe l) :=
  ⟨(list_files_ordering ⟨false, true, Except.ok []⟩ "/nope").1 rfl,
   (list_files_ordering examplePath "/d").2.2.1 exampleEntries rfl rfl rfl⟩

/-- Claim C7: the delivery outcome of the publish sink never alters the
transfer: the sequence of emit attempts of the streaming loop, the
synchronous result of transfer_file and its emitted event sequence are
identical under any two sinks, so no emit error is propagated as a transfer
error. -/
theorem emit_failure_never_fails_transfer (f g : UiEvent → Bool)
    (env : TransferEnv) (source dest : String) :
    (streamLoop f env.events).1 = (streamLoop g env.events).1 ∧
    (transfer_file env f source dest).1 = (transfer_file env g source dest).1 ∧
    (transfer_file env f source dest).2 = (transfer_file env g source dest).2 := by
  refine ⟨streamLoop_fst_ignores_sink f g env.events, ?_, ?_⟩
  · cases hs : env.sidecarErr <;> cases hp : env.spawnErr <;>
      simp [transfer_file, hs, hp]
  · cases hs : env.sidecarErr <;> cases hp : env.spawnErr <;>
      simp [transfer_file, hs, hp, streamLoop_fst_ignores_sink f g env.events]

/-- Claim C8: when the directory itself reads fine, every entry whose
per-entry read failed is logged and skipped while all successfully read
entries are still returned (as a permutation, since they are then sorted):
per-entry errors never make the listing return an error. -/
theorem list_files_skips_failed_entries (p : PathInfo) (path : String)
    (es : List DirEntryRead) (h1 : p.pathExists = true) (h2 : p.isDir = true)
    (h3 : p.entries = Except.ok es) :
    ∃ l, (list_files p path).1 = Except.ok l ∧
      l.Perm (es.filterMap readEntry) ∧
      (list_files p path).2 = es.filterMap entryLog := by
  refine ⟨List.insertionSort entryLe (es.filterMap readEntry), ?_, ?_, ?_⟩
  · simp [list_files, h1, h2, h3]
  · exact List.perm_insertionSort entryLe (es.filterMap readEntry)
  · simp [list_files, h1, h2, h3]

/-- Witness for C8 on a directory whose middle entry fails to read. -/
theorem list_files_skips_failed_entries_witness :
    ∃ l, (list_files ⟨true, true, Except.ok mixedEntries⟩ "/m").1 = Except.ok l ∧
      l.Perm (mixedEntries.filterMap readEntry) ∧
      (list_files ⟨true, true, Except.ok mixedEntries⟩ "/m").2 =
        mixedEntries.filterMap entryLog :=
  list_files_skips_failed_entries ⟨true, true, Except.ok mixedEntries⟩ "/m"
    mixedEntries rfl rfl rfl

/-- Claim C9: once the sidecar resolves and the spawn succeeds, transfer_file
returns Ok synchronously, whatever the process later does; a later nonzero
exit surfaces only in the asynchronous event list, as the terminal failure
event after the streamed progress lines. -/
theorem transfer_returns_at_spawn (env : TransferEnv) (f : UiEvent → Bool)
    (source dest : String) (h1 : env.sidecarErr = none) (h2 : env.spawnErr = none) :
    (transfer_file env f source dest).1 = Except.ok () ∧
    (∀ pre code post, (∀ e ∈ pre, nonTerminal e = true) →
      env.events = pre ++ CommandEvent.terminated code :: post → code ≠ some 0 →
      (transfer_file env f source dest).2 =
        pre.filterMap progressEmit ++
          [UiEvent.rsyncFailed ("Transfer failed with exit code: " ++ debugCode code)]) := by
  have hrun : transfer_file env f source dest =
      (Except.ok (), (streamLoop f env.events).1) := by
    simp [transfer_file, h1, h2]
  refine ⟨by rw [hrun], ?_⟩
  intro pre code post hpre hev hc
  rw [hrun, hev]
  have hterm : (streamLoop f (CommandEvent.terminated code :: post)).1 =
      if code = some 0 then [UiEvent.rsyncComplete "Transfer completed successfully"]
      else [UiEvent.rsyncFailed ("Transfer failed with exit code: " ++ debugCode code)] := rfl
  show (streamLoop f (pre ++ CommandEvent.terminated code :: post)).1 = _
  rw [streamLoop_append f pre (CommandEvent.terminated code :: post) hpre, hterm,
    if_neg hc]

/-- Witness for C9: a spawned transfer whose process later exits 12 still
returns Ok synchronously. -/
theorem transfer_returns_at_spawn_witness :
    (transfer_file ⟨none, none, [CommandEvent.terminated (some 12)]⟩
        (fun _ => true) "/s" "/d").1 = Except.ok () :=
  (transfer_returns_at_spawn ⟨none, none, [CommandEvent.terminated (some 12)]⟩
      (fun _ => true) "/s" "/d" rfl rfl).1

/-- Claim C10: a Terminated event with no exit code (e.g. the process was
killed by a signal) makes the loop emit the failure event and never the
completion event; the completion event is emitted exactly when the code is
Some 0. -/
theorem transfer_no_code_emits_failure (f : UiEvent → Bool)
    (pre post : List CommandEvent) (h : ∀ e ∈ pre, nonTerminal e = true) :
    (streamLoop f (pre ++ CommandEvent.terminated none :: post)).1 =
      pre.filterMap progressEmit ++
        [UiEvent.rsyncFailed ("Transfer failed with exit code: " ++ debugCode none)] ∧
    (∀ s, UiEvent.rsyncComplete s ∉
      (streamLoop f (pre ++ CommandEvent.terminated none :: post)).1) ∧
    (∀ code : Option Int,
      (streamLoop f [CommandEvent.terminated code]).1 =
        [UiEvent.rsyncComplete "Transfer completed successfully"] ↔ code = some 0) := by
  have hsplit := streamLoop_append f pre (CommandEvent.terminated none :: post) h
  have hterm : (streamLoop f (CommandEvent.terminated none :: post)).1 =
      [UiEvent.rsyncFailed ("Transfer failed with exit code: " ++ debugCode none)] := rfl
  refine ⟨by rw [hsplit, hterm], ?_, ?_⟩
  · intro s hmem
    rw [hsplit, hterm] at hmem
    rcases List.mem_append.mp hmem with hmem | hmem
    · have hterm2 := progressEmit_not_terminal pre _ hmem
      simp [isTerminalEvent] at hterm2
    · simp at hmem
  · intro code
    constructor
    · intro hc
      by_cases h0 : code = some 0
      · exact h0
      · have hx : (streamLoop f [CommandEvent.terminated code]).1 =
            [UiEvent.rsyncFailed ("Transfer failed with exit code: " ++ debugCode code)] := by
          simp [streamLoop, h0]
        rw [hx] at hc
        simp at hc
    · intro h0
      subst h0
      rfl

/-- Witness for C10 at a concrete signal-kill stream. -/
theorem transfer_no_code_emits_failure_witness :
    (streamLoop (fun _ => true)
        ([CommandEvent.stderr "killed"] ++ CommandEvent.terminated none :: [])).1 =
      [CommandEvent.stderr "killed"].filterMap progressEmit ++
        [UiEvent.rsyncFailed ("Transfer failed with exit code: " ++ debugCode none)] :=
  (transfer_no_code_emits_failure (fun _ => true) [CommandEvent.stderr "killed"] []
      (by decide)).1
